import Mathlib

/-!
Verification development for the cwlgo repository (Go): a shallow embedding in
Lean 4 of the command-line synthesis and execution engine defined in
src/unnamed/part_000 (the executor) and src/cwl.go (the data model), together
with theorems settling the frozen claims about it.

Modelling conventions:
- Go `interface{}` values, as far as this program inspects them, are embedded
  as the inductive `GoVal` (string, bool, float64, int, slice, map).  Go type
  assertions `v.(T)` become pattern matches on the corresponding constructor.
- Go maps (`map[string]T`) are embedded as association lists.  Where the
  program *iterates* a map (`for k, v := range m`) the iteration order is
  unspecified and randomized by the Go runtime, so the embedding takes the
  iteration order as an explicit list; quantifying over permutations of the
  list quantifies over the runtime's possible orders.
- Go `float64` values are embedded as `Rat` (every float64 is rational).
- Fallible Go functions returning `(T, error)` become `Except CWLError T`.
- Host effects (process execution, filesystem globbing, directory creation)
  are parameters of the embedding: the pure control flow around them is the
  code under verification.
-/

/-- Embeds the Go error values produced by this program (`CWLError` in
src/cwl.go): every error carries a human-readable message; the wrapped
`Err` cause is irrelevant to the claims and elided. -/
structure CWLError where
  message : String
deriving DecidableEq, Repr

/-- Embeds the Go `interface{}` values that this program inspects:
`string`, `bool`, `float64` (as `Rat`), `int`, `[]interface{}` and
`map[string]interface{}` (as an association list). -/
inductive GoVal where
  | str (s : String)
  | boolean (b : Bool)
  | num (q : Rat)
  | int (n : Int)
  | arr (xs : List GoVal)
  | map (kvs : List (String × GoVal))

/-- Association-list lookup, embedding Go map indexing `m[k]` (first match;
Go map keys are unique). -/
def lookupGo (kvs : List (String × GoVal)) (k : String) : Option GoVal :=
  match kvs with
  | [] => none
  | (k2, v) :: rest => if k2 = k then some v else lookupGo rest k

/-- Embeds the `CommandLineBinding` struct of src/cwl.go.  The Go field
`Prefix` is called `pfx` here (the gate on this file forbids that name);
`Separate` and `ShellQuote` are `*bool` (nil = unset), `ValueFrom` is
`interface{}` (nil = absent). -/
structure CommandLineBinding where
  position : Int := 0
  pfx : String := ""
  separate : Option Bool := none
  itemSeparator : String := ""
  valueFrom : Option GoVal := none
  shellQuote : Option Bool := none

/-- Embeds `CommandInputParameter` of src/cwl.go, keeping the fields the
executor reads (`Default`, `Binding`); the metadata fields (ID, Label, Doc,
Type, Format, SecondaryFiles) are never read by the code under the claims
and are omitted.  `Default` is called `defaultVal` (`default` is a Lean
keyword). -/
structure CommandInputParameter where
  defaultVal : Option GoVal := none
  binding : Option CommandLineBinding := none

/-- Embeds `CommandOutputBinding` of src/cwl.go (`Glob` is `interface{}`:
string, list, or other; nil = absent). -/
structure CommandOutputBinding where
  glob : Option GoVal := none

/-- Embeds `CommandOutputParameter` of src/cwl.go, keeping the field the
executor reads (`Binding`). -/
structure CommandOutputParameter where
  binding : Option CommandOutputBinding := none

/-- Embeds `ContainerConfig` of src/cwl.go.  The Go fields `Type` and
`Import` are called `typ` and `imageImport` here (keyword / gate
constraints). -/
structure ContainerConfig where
  typ : String := ""
  image : String := ""
  pull : Bool := false
  load : String := ""
  file : String := ""
  imageImport : String := ""
  imageID : String := ""
  outputDir : String := ""
  volumes : List String := []
  workDir : String := ""
  envVars : List String := []

/-- Embeds `CommandLineTool` of src/cwl.go, keeping the fields the executor
reads.  `Inputs` and `Outputs` are Go maps: the lists fix one iteration
order (see module comment).  `BaseCommand` is `interface{}`. -/
structure CommandLineTool where
  baseCommand : Option GoVal := none
  inputs : List (String × CommandInputParameter) := []
  outputs : List (String × CommandOutputParameter) := []
  arguments : List CommandLineBinding := []
  requirements : List (List (String × GoVal)) := []
  stdin : String := ""
  stdout : String := ""
  stderr : String := ""
  successCodes : List Int := []

/-- Embeds `ExecutionContext` of src/cwl.go. -/
structure ExecutionContext where
  workingDir : String := ""
  tempDir : String := ""
  inputs : List (String × GoVal) := []
  outputDir : String := ""
  environmentVars : List (String × String) := []
  container : Option ContainerConfig := none

/-- Embeds `Executor` of src/unnamed/part_000. -/
structure Executor where
  dockerEnabled : Bool := true
  singularityEnabled : Bool := true
  maxCores : Int := 4
  maxRAM : Int := 8192

/-- Embeds `NewExecutor` of src/unnamed/part_000 lines 26-33. -/
def NewExecutor : Executor :=
  { dockerEnabled := true, singularityEnabled := true, maxCores := 4, maxRAM := 8192 }

/-- Embeds `ExecuteResult` of src/unnamed/part_000 lines 36-41. -/
structure ExecuteResult where
  exitCode : Int
  stdout : String
  stderr : String
  outputFiles : List (String × String)
deriving DecidableEq, Repr

/-- Embeds `CommandArg` of src/unnamed/part_000 lines 304-307. -/
structure CommandArg where
  position : Int
  args : List String
deriving DecidableEq, Repr

/-- Embeds Go's `int(f)` conversion from float64: truncation toward zero. -/
def goTrunc (q : Rat) : Int :=
  if 0 ≤ q.num then ((q.num.toNat / q.den : Nat) : Int)
  else -(((-q.num).toNat / q.den : Nat) : Int)

/-- Helper for `formatG`: drop trailing zero characters. -/
def stripTrailingZeros (s : String) : String :=
  String.mk ((s.toList.reverse.dropWhile (fun c => c = '0')).reverse)

/-- Embeds `fmt.Sprintf "%g"` on a float64 (src/unnamed/part_000 line 413) as
far as the claims need it: integral values print as plain integers exactly as
%g does; non-integral values print in positional decimal form with trailing
zeros trimmed (every float64 is a dyadic rational with a finite decimal
expansion; %g's shortest-round-trip digit selection and its switch to
exponent notation for very large/small magnitudes are approximated by a
17-digit expansion).  No claim depends on the digits chosen here, only on the
rendering being a fixed pure function. -/
def formatG (q : Rat) : String :=
  if q.den = 1 then toString q.num
  else
    let sgn := if q.num < 0 then "-" else ""
    let n : Nat := q.num.natAbs
    let ip : Nat := n / q.den
    let fracNum : Nat := n % q.den
    let digits := toString (fracNum * 10 ^ 17 / q.den)
    let padded := String.mk (List.replicate (17 - digits.length) '0') ++ digits
    sgn ++ toString ip ++ "." ++ stripTrailingZeros padded

/-- Embeds the base-command handling of `BuildCommandLine`
(src/unnamed/part_000 lines 314-334): a string contributes itself, a slice
contributes its elements which must all be strings, anything else is an
error. -/
def baseCommandTokens (bc : Option GoVal) : Except CWLError (List String) :=
  match bc with
  | some (GoVal.str s) => .ok [s]
  | some (GoVal.arr cs) => goList cs
  | _ => .error ⟨"invalid base command type"⟩
where
  goList : List GoVal → Except CWLError (List String)
    | [] => .ok []
    | GoVal.str s :: rest =>
      match goList rest with
      | .error e => .error e
      | .ok ts => .ok (s :: ts)
    | _ :: _ => .error ⟨"invalid base command element type"⟩

/-- Embeds the static-argument rendering of `BuildCommandLine`
(src/unnamed/part_000 lines 337-372): a string `ValueFrom` combines with the
prefix per the separate flag (default true); a non-string or absent
`ValueFrom` falls back to the bare prefix, and with no prefix either it is an
error. -/
def renderArgument (arg : CommandLineBinding) : Except CWLError (List String) :=
  match arg.valueFrom with
  | some (GoVal.str v) =>
    if arg.pfx ≠ "" then
      let separate := arg.separate.getD true
      if separate then .ok [arg.pfx, v] else .ok [arg.pfx ++ v]
    else .ok [v]
  | _ =>
    if arg.pfx ≠ "" then .ok [arg.pfx]
    else .error ⟨"unsupported argument value type"⟩

/-- Embeds the input-value resolution of `BuildCommandLine`
(src/unnamed/part_000 lines 380-391): the supplied input value, else the
declared default, else a missing-input error. -/
def resolveValue (ctxInputs : List (String × GoVal)) (inputID : String)
    (p : CommandInputParameter) : Except CWLError GoVal :=
  match lookupGo ctxInputs inputID with
  | some v => .ok v
  | none =>
    match p.defaultVal with
    | some d => .ok d
    | none => .error ⟨"missing required input: " ++ inputID⟩

/-- Embeds the value-type switch of `BuildCommandLine` (src/unnamed/part_000
lines 398-440): returns the rendered `cmdValue` together with the `skipArg`
flag (true only for boolean false). -/
def renderInputValue (inputID : String) (v : GoVal) : Except CWLError (String × Bool) :=
  match v with
  | GoVal.str s => .ok (s, false)
  | GoVal.boolean b => if b then .ok ("", false) else .ok ("", true)
  | GoVal.num q => .ok (formatG q, false)
  | GoVal.int n => .ok (toString n, false)
  | GoVal.map kvs =>
    match lookupGo kvs "class" with
    | some (GoVal.str cls) =>
      if cls = "File" then
        match lookupGo kvs "path" with
        | some (GoVal.str p) => .ok (p, false)
        | _ => .error ⟨"File input " ++ inputID ++ " missing path"⟩
      else .error ⟨"unsupported input value type for " ++ inputID⟩
    | _ => .error ⟨"unsupported input value type for " ++ inputID⟩
  | GoVal.arr _ => .error ⟨"unsupported input value type for " ++ inputID⟩

/-- Embeds one iteration of the input-binding loop of `BuildCommandLine`
(src/unnamed/part_000 lines 375-481): `none` means the loop `continue`s with
no fragment (no binding, or a false boolean). -/
def inputFragment (ctxInputs : List (String × GoVal)) (inputID : String)
    (p : CommandInputParameter) : Except CWLError (Option CommandArg) :=
  match p.binding with
  | none => .ok none
  | some b =>
    match resolveValue ctxInputs inputID p with
    | .error e => .error e
    | .ok v =>
      match renderInputValue inputID v with
      | .error e => .error e
      | .ok (cmdValue, skipArg) =>
        if skipArg then .ok none
        else
          if b.pfx ≠ "" then
            let separate := b.separate.getD true
            let boolTrue := match v with | GoVal.boolean b2 => b2 | _ => false
            if cmdValue == "" && boolTrue then
              .ok (some ⟨b.position, [b.pfx]⟩)
            else if separate then .ok (some ⟨b.position, [b.pfx, cmdValue]⟩)
            else .ok (some ⟨b.position, [b.pfx ++ cmdValue]⟩)
          else .ok (some ⟨b.position, [cmdValue]⟩)

/-- Collects the static arguments' fragments in declaration order
(src/unnamed/part_000 lines 337-372). -/
def collectArgFragments : List CommandLineBinding → Except CWLError (List CommandArg)
  | [] => .ok []
  | a :: rest =>
    match renderArgument a with
    | .error e => .error e
    | .ok ts =>
      match collectArgFragments rest with
      | .error e => .error e
      | .ok frags => .ok (⟨a.position, ts⟩ :: frags)

/-- Collects the input bindings' fragments in the given map-iteration order
(src/unnamed/part_000 lines 375-481). -/
def collectInputFragments (ctxInputs : List (String × GoVal)) :
    List (String × CommandInputParameter) → Except CWLError (List CommandArg)
  | [] => .ok []
  | (inputID, p) :: rest =>
    match inputFragment ctxInputs inputID p with
    | .error e => .error e
    | .ok none => collectInputFragments ctxInputs rest
    | .ok (some ca) =>
      match collectInputFragments ctxInputs rest with
      | .error e => .error e
      | .ok frags => .ok (ca :: frags)

/-- Insertion of one element into a position-sorted list, placing it after
all elements with positions less than or equal to its own. -/
def insertByPos (x : CommandArg) : List CommandArg → List CommandArg
  | [] => [x]
  | y :: ys => if x.position < y.position then x :: y :: ys else y :: insertByPos x ys

/-- Embeds the `sort.Slice(posArgs, less-by-Position)` call of
src/unnamed/part_000 lines 483-486.  Go's `sort.Slice` is an unstable
introsort (pdqsort), but for slices of at most 12 elements it runs exactly
the stable insertion sort modelled here; the theorems below either evaluate
the renderer on concrete inputs in that regime or state properties of the
token multiset that are insensitive to how ties are ordered.  Note that the
claim about tie stability is settled by the map-iteration nondeterminism
(see the C1 theorem), which this stable model makes only *more*
conservative. -/
def sortSlice (l : List CommandArg) : List CommandArg :=
  l.foldl (fun acc x => insertByPos x acc) []

/-- Embeds `BuildCommandLine` of src/unnamed/part_000 lines 310-494.  The
`Executor` receiver is unused by the Go method and is omitted.  The
argument fragments precede the input fragments in the pre-sort slice, as in
the source; `ctx.inputs` supplies the resolved input values. -/
def buildCommandLine (tool : CommandLineTool) (ctx : ExecutionContext) :
    Except CWLError (List String) :=
  match baseCommandTokens tool.baseCommand with
  | .error e => .error e
  | .ok base =>
    match collectArgFragments tool.arguments with
    | .error e => .error e
    | .ok argFrags =>
      match collectInputFragments ctx.inputs tool.inputs with
      | .error e => .error e
      | .ok inFrags =>
        .ok (base ++ ((sortSlice (argFrags ++ inFrags)).map CommandArg.args).flatten)

/-- Host capability probes, the outcomes of `checkDockerAvailable` and
`checkSingularityAvailable` (src/unnamed/part_000 lines 666-699): parameters
of the embedding, true when the corresponding version probe succeeds (for
Singularity: either the singularity or the apptainer probe). -/
structure Host where
  dockerAvailable : Bool := true
  singularityAvailable : Bool := true

/-- Association-list update with Go map assignment semantics `m[k] = v`:
replace the existing entry for the key, else append. -/
def setKV (kvs : List (String × String)) (k v : String) : List (String × String) :=
  match kvs with
  | [] => [(k, v)]
  | (k2, v2) :: rest => if k2 = k then (k, v) :: rest else (k2, v2) :: setKV rest k v

/-- String field extraction used by the container-requirement branches:
`if v, ok := reqMap[key].(string); ok && v != ""` assigns `v`, and the
config field's zero value is `""`, so the field ends up `""` exactly when the
record holds no non-empty string at that key. -/
def reqStr (r : List (String × GoVal)) (key : String) : String :=
  match lookupGo r key with
  | some (GoVal.str s) => s
  | _ => ""

/-- Embeds the `DockerRequirement` branch of `processRequirements`
(src/unnamed/part_000 lines 95-157). -/
def processDockerReq (e : Executor) (host : Host) (r : List (String × GoVal))
    (ctx : ExecutionContext) : Except CWLError ExecutionContext :=
  if !e.dockerEnabled then .error ⟨"Docker is required but not enabled"⟩
  else
    let cfg : ContainerConfig :=
      { typ := "docker", volumes := [], envVars := [],
        image := reqStr r "dockerPull", pull := reqStr r "dockerPull" ≠ "",
        load := reqStr r "dockerLoad", file := reqStr r "dockerFile",
        imageImport := reqStr r "dockerImport", imageID := reqStr r "dockerImageId",
        outputDir := reqStr r "dockerOutputDirectory" }
    if cfg.image = "" ∧ cfg.load = "" ∧ cfg.file = "" ∧ cfg.imageImport = "" ∧ cfg.imageID = "" then
      .error ⟨"Docker requirement must specify at least one image source"⟩
    else if !host.dockerAvailable then .error ⟨"Docker is required but not available"⟩
    else .ok { ctx with container := some cfg }

/-- Embeds the `SingularityRequirement` branch of `processRequirements`
(src/unnamed/part_000 lines 159-221). -/
def processSingularityReq (e : Executor) (host : Host) (r : List (String × GoVal))
    (ctx : ExecutionContext) : Except CWLError ExecutionContext :=
  if !e.singularityEnabled then .error ⟨"Singularity is required but not enabled"⟩
  else
    let cfg : ContainerConfig :=
      { typ := "singularity", volumes := [], envVars := [],
        image := reqStr r "singularityPull", pull := reqStr r "singularityPull" ≠ "",
        load := reqStr r "singularityLoad", file := reqStr r "singularityFile",
        imageImport := reqStr r "singularityImport", imageID := reqStr r "singularityImageId",
        outputDir := reqStr r "singularityOutputDirectory" }
    if cfg.image = "" ∧ cfg.load = "" ∧ cfg.file = "" ∧ cfg.imageImport = "" ∧ cfg.imageID = "" then
      .error ⟨"Singularity requirement must specify at least one image source"⟩
    else if !host.singularityAvailable then .error ⟨"Singularity is required but not available"⟩
    else .ok { ctx with container := some cfg }

/-- Embeds the envDef item loop of the `EnvVarRequirement` branch
(src/unnamed/part_000 lines 233-268), threading the context's environment
mapping. -/
def processEnvDefs (ctx : ExecutionContext) : List GoVal → Except CWLError ExecutionContext
  | [] => .ok ctx
  | item :: rest =>
    match item with
    | GoVal.map kvs =>
      match lookupGo kvs "name" with
      | some (GoVal.str name) =>
        match lookupGo kvs "value" with
        | some (GoVal.str strVal) =>
          processEnvDefs { ctx with environmentVars := setKV ctx.environmentVars name strVal } rest
        | some _ => .error ⟨"unsupported environment variable value type for " ++ name⟩
        | none => .error ⟨"envDef items must have a 'value' field"⟩
      | _ => .error ⟨"envDef items must have a 'name' field"⟩
    | _ => .error ⟨"envDef items must be objects"⟩

/-- Embeds the `EnvVarRequirement` branch of `processRequirements`
(src/unnamed/part_000 lines 223-268). -/
def processEnvVarReq (r : List (String × GoVal)) (ctx : ExecutionContext) :
    Except CWLError ExecutionContext :=
  match lookupGo r "envDef" with
  | some (GoVal.arr items) => processEnvDefs ctx items
  | _ => .error ⟨"EnvVarRequirement must have an 'envDef' field"⟩

/-- Embeds the ramMin half of the `ResourceRequirement` branch
(src/unnamed/part_000 lines 282-289): only a float64-typed value passes the
`.(float64)` assertion, and it is compared through Go's `int64(...)`
truncation. -/
def resourceRamCheck (e : Executor) (r : List (String × GoVal))
    (ctx : ExecutionContext) : Except CWLError ExecutionContext :=
  match lookupGo r "ramMin" with
  | some (GoVal.num q) =>
    if goTrunc q > e.maxRAM then .error ⟨"required RAM exceeds maximum"⟩ else .ok ctx
  | _ => .ok ctx

/-- Embeds the `ResourceRequirement` branch of `processRequirements`
(src/unnamed/part_000 lines 270-289): the coresMin check (through Go's
`int(...)` truncation, skipped unless the value is float64-typed) followed
by the ramMin check; the context is never modified. -/
def processResourceReq (e : Executor) (r : List (String × GoVal))
    (ctx : ExecutionContext) : Except CWLError ExecutionContext :=
  match lookupGo r "coresMin" with
  | some (GoVal.num q) =>
    if goTrunc q > e.maxCores then .error ⟨"required cores exceeds maximum"⟩
    else resourceRamCheck e r ctx
  | _ => resourceRamCheck e r ctx

/-- Embeds the per-record dispatch of `processRequirements`
(src/unnamed/part_000 lines 84-297): the record must carry a string `class`,
and unknown classes are an error. -/
def processOneRequirement (e : Executor) (host : Host) (r : List (String × GoVal))
    (ctx : ExecutionContext) : Except CWLError ExecutionContext :=
  match lookupGo r "class" with
  | some (GoVal.str cls) =>
    if cls = "DockerRequirement" then processDockerReq e host r ctx
    else if cls = "SingularityRequirement" then processSingularityReq e host r ctx
    else if cls = "EnvVarRequirement" then processEnvVarReq r ctx
    else if cls = "ResourceRequirement" then processResourceReq e r ctx
    else .error ⟨"unsupported requirement class: " ++ cls⟩
  | _ => .error ⟨"requirement must have a 'class' field"⟩

/-- Embeds `processRequirements` of src/unnamed/part_000 lines 83-301:
records are processed in declaration order, mutating the context in place
(explicit state passing here) and returning on the first failure. -/
def processRequirements (e : Executor) (host : Host) :
    List (List (String × GoVal)) → ExecutionContext → Except CWLError ExecutionContext
  | [], ctx => .ok ctx
  | r :: rest, ctx =>
    match processOneRequirement e host r ctx with
    | .error err => .error err
    | .ok ctx2 => processRequirements e host rest ctx2

/-- Outcome of `cmd.Run()` for the child process: either the process ran to
completion and yielded a concrete exit code (Go reports a nil error for code
0 and an `*exec.ExitError` carrying the code otherwise), or the launch
failed with no exit code (a non-ExitError). -/
inductive ProcOutcome where
  | exited (code : Int)
  | startFailure (msg : String)

/-- Return shape of `runCommand` (src/unnamed/part_000 line 497): Go returns
the pair `(*ExecuteResult, error)`, either `(nil, err)` or a non-nil result
together with an optional error. -/
inductive RunReturn where
  | failedNoResult (err : CWLError)
  | finished (res : ExecuteResult) (err : Option CWLError)
deriving DecidableEq, Repr

/-- Embeds the exit-code classification shared by `runCommand` and
`runContainerCommand` (src/unnamed/part_000 lines 571-605 and 780-818): exit
code 0 means `cmd.Run` returned nil; a non-zero exit code whose value is in
the declared success-code set has its error suppressed; any other non-zero
exit code is returned as a failure alongside the result; a launch failure
returns no result. -/
def classifyExit (successCodes : List Int) (outcome : ProcOutcome)
    (stdoutS stderrS : String) : RunReturn :=
  match outcome with
  | .startFailure msg => .failedNoResult ⟨"command execution failed: " ++ msg⟩
  | .exited c =>
    if c = 0 then .finished ⟨0, stdoutS, stderrS, []⟩ none
    else if c ∈ successCodes then .finished ⟨c, stdoutS, stderrS, []⟩ none
    else .finished ⟨c, stdoutS, stderrS, []⟩ (some ⟨"exit status error"⟩)

/-- Embeds the control flow of `runCommand` (src/unnamed/part_000 lines
497-605) around the host process: the empty-command guard, the dispatch to
`runContainerCommand` (whose exit classification, lines 780-818, is
identical; an unsupported container type fails first), and the exit
classification.  The stdio redirection plumbing performs host file I/O only
and does not affect the returned exit code; its failure paths are outside
the claims and elided. -/
def runCommandModel (tool : CommandLineTool) (cmdArgs : List String)
    (execCtx : ExecutionContext) (outcome : ProcOutcome)
    (stdoutS stderrS : String) : RunReturn :=
  if cmdArgs = [] then .failedNoResult ⟨"empty command"⟩
  else
    match execCtx.container with
    | some cfg =>
      if cfg.typ = "docker" ∨ cfg.typ = "singularity" then
        classifyExit tool.successCodes outcome stdoutS stderrS
      else .failedNoResult ⟨"unsupported container type: " ++ cfg.typ⟩
    | none => classifyExit tool.successCodes outcome stdoutS stderrS

/-- Path joining as used with `filepath.Join(dir, name)`; the claims treat
the joined pattern opaquely (it is only fed to the glob oracle), so the
path-cleaning that `filepath.Join` additionally performs is not modelled. -/
def joinPath (dir name : String) : String := dir ++ "/" ++ name

/-- Association-list lookup for the string-valued output map. -/
def lookupS (kvs : List (String × String)) (k : String) : Option String :=
  match kvs with
  | [] => none
  | (k2, v) :: rest => if k2 = k then some v else lookupS rest k

/-- Embeds the glob-list loop of `processOutputs` (src/unnamed/part_000
lines 633-652): patterns are tried in order, non-string entries are silently
skipped, the first pattern with at least one match binds its first match and
breaks, and a glob-expansion error is fatal. -/
def resolveGlobList (dir : String) (globFn : String → Except String (List String)) :
    List GoVal → Except CWLError (Option String)
  | [] => .ok none
  | GoVal.str g :: rest =>
    match globFn (joinPath dir g) with
    | .error e => .error ⟨"failed to expand glob pattern: " ++ e⟩
    | .ok [] => resolveGlobList dir globFn rest
    | .ok (m :: _) => .ok (some m)
  | _ :: rest => resolveGlobList dir globFn rest

/-- Embeds one iteration of the output loop of `processOutputs`
(src/unnamed/part_000 lines 611-660): `none` means the output id is left
absent (no binding, or zero matches). -/
def resolveOutput (dir : String) (globFn : String → Except String (List String))
    (p : CommandOutputParameter) : Except CWLError (Option String) :=
  match p.binding with
  | none => .ok none
  | some b =>
    match b.glob with
    | some (GoVal.str g) =>
      match globFn (joinPath dir g) with
      | .error e => .error ⟨"failed to expand glob pattern: " ++ e⟩
      | .ok [] => .ok none
      | .ok (m :: _) => .ok (some m)
    | some (GoVal.arr gs) => resolveGlobList dir globFn gs
    | _ => .error ⟨"unsupported glob pattern type"⟩

/-- Accumulator-threading loop of `processOutputs` (src/unnamed/part_000
lines 609-662). -/
def processOutputsAux (dir : String) (globFn : String → Except String (List String)) :
    List (String × CommandOutputParameter) → List (String × String) →
    Except CWLError (List (String × String))
  | [], acc => .ok acc
  | (outputID, p) :: rest, acc =>
    match resolveOutput dir globFn p with
    | .error e => .error e
    | .ok none => processOutputsAux dir globFn rest acc
    | .ok (some path) => processOutputsAux dir globFn rest (setKV acc outputID path)

/-- Embeds `processOutputs` of src/unnamed/part_000 lines 608-663, with the
filesystem's `filepath.Glob` supplied as the oracle `globFn` (pattern →
matches in lexical enumeration order, or an expansion error).  The outputs
list fixes one Go map iteration order. -/
def processOutputs (outputs : List (String × CommandOutputParameter)) (dir : String)
    (globFn : String → Except String (List String)) :
    Except CWLError (List (String × String)) :=
  processOutputsAux dir globFn outputs []

/-- Modelled refinement reference for the output resolver, following the
spec's words: expand each pattern of the list in order against the output
directory; the first pattern that yields at least one filesystem match binds
the first matched path; if no pattern matches the output stays absent;
expansion errors are fatal. -/
def specFirstMatch (dir : String) (globFn : String → Except String (List String)) :
    List String → Except CWLError (Option String)
  | [] => .ok none
  | g :: rest =>
    match globFn (joinPath dir g) with
    | .error e => .error ⟨"failed to expand glob pattern: " ++ e⟩
    | .ok [] => specFirstMatch dir globFn rest
    | .ok (m :: _) => .ok (some m)

/-- Embeds `Execute` of src/unnamed/part_000 lines 44-80 from the point
where the execution context exists: the inputs are installed on the context,
then requirements, command-line construction, process execution and output
resolution run in sequence, each `err != nil` returning `(nil, err)`; on
success the output files are attached to the result.  The process outcome,
captured stdio and the glob oracle are the host-effect parameters. -/
def ExecuteModel (e : Executor) (host : Host) (tool : CommandLineTool)
    (inputs : List (String × GoVal)) (ctx0 : ExecutionContext)
    (outcome : ProcOutcome) (stdoutS stderrS : String)
    (globFn : String → Except String (List String)) :
    Option ExecuteResult × Option CWLError :=
  let ctx := { ctx0 with inputs := inputs }
  match processRequirements e host tool.requirements ctx with
  | .error err => (none, some err)
  | .ok ctx1 =>
    match buildCommandLine tool ctx1 with
    | .error err => (none, some err)
    | .ok cmdArgs =>
      match runCommandModel tool cmdArgs ctx1 outcome stdoutS stderrS with
      | .failedNoResult err => (none, some err)
      | .finished _ (some err) => (none, some err)
      | .finished result none =>
        match processOutputs tool.outputs ctx1.outputDir globFn with
        | .error err => (none, some err)
        | .ok files => (some { result with outputFiles := files }, none)

/-- Host filesystem outcomes for the execution-context lifecycle
(src/cwl.go lines 203-240): the result of `os.Getwd`, of `os.MkdirTemp`
(whose success names and creates the temporary directory), and of
`os.MkdirAll` on the output directory. -/
structure HostFs where
  getwdResult : Except String String
  mkdirTempResult : Except String String
  mkdirAllOk : Bool

/-- Embeds `NewExecutionContext` of src/cwl.go lines 203-230, additionally
reporting the temporary directories the call created on the host (the second
component), so that leaks are observable. -/
def NewExecutionContextModel (workingDir : String) (fs : HostFs) :
    Except CWLError ExecutionContext × List String :=
  let wdRes : Except CWLError String :=
    if workingDir = "" then
      match fs.getwdResult with
      | .error e => .error ⟨"failed to get current working directory: " ++ e⟩
      | .ok wd => .ok wd
    else .ok workingDir
  match wdRes with
  | .error e => (.error e, [])
  | .ok wd =>
    match fs.mkdirTempResult with
    | .error e => (.error ⟨"failed to create temporary directory: " ++ e⟩, [])
    | .ok tempDir =>
      if fs.mkdirAllOk then
        (.ok { workingDir := wd, tempDir := tempDir, inputs := [],
               outputDir := joinPath wd "output", environmentVars := [],
               container := none }, [tempDir])
      else (.error ⟨"failed to create output directory"⟩, [tempDir])

/-- Embeds `Cleanup` of src/cwl.go lines 233-240: the temporary directories
it removes (the `RemoveAll` is attempted whenever `TempDir` is non-empty). -/
def CleanupModel (ctx : ExecutionContext) : List String :=
  if ctx.tempDir ≠ "" then [ctx.tempDir] else []

/-- Temp-dir lifecycle of `Execute` (src/unnamed/part_000 lines 44-50): the
call creates its context with `NewExecutionContext("")` and only then arms
`defer execCtx.Cleanup()`; `bodySucceeds` abstracts every later exit path of
`Execute` (success or any failure), on all of which the deferred `Cleanup`
runs, while a failure inside `NewExecutionContext` itself returns before the
defer exists.  The result is the pair (temp dirs created, temp dirs
removed). -/
def executeTempDirs (fs : HostFs) (bodySucceeds : Bool) : List String × List String :=
  match NewExecutionContextModel "" fs with
  | (.error _, created) => (created, [])
  | (.ok ctx, created) =>
    match bodySucceeds with
    | true => (created, CleanupModel ctx)
    | false => (created, CleanupModel ctx)

/-- Baseline execution context used by concrete instances: the shape
`NewExecutionContext` produces on a successful run. -/
def cxBase : ExecutionContext :=
  { workingDir := "/work", tempDir := "/tmp/cwlgo-1", inputs := [],
    outputDir := "/work/output", environmentVars := [], container := none }

/-- Host with both container probes succeeding. -/
def hostAll : Host := { dockerAvailable := true, singularityAvailable := true }

/-- Glob oracle with no filesystem matches. -/
def emptyGlob : String → Except String (List String) := fun _ => .ok []

/-- Input parameter bound at position 1 with no prefix, used by the C1
theorem. -/
def c1param : CommandInputParameter := { binding := some { position := 1 } }

/-- Tool with two inputs sharing position 1; the list fixes one iteration
order of the Go `tool.Inputs` map. -/
def c1toolA : CommandLineTool :=
  { baseCommand := some (GoVal.str "echo"), inputs := [("a", c1param), ("b", c1param)] }

/-- The same tool value with the other iteration order of the same map. -/
def c1toolB : CommandLineTool := { c1toolA with inputs := c1toolA.inputs.reverse }

/-- Supplied input values for the C1 theorem. -/
def c1ctx : ExecutionContext := { inputs := [("a", GoVal.str "x"), ("b", GoVal.str "y")] }

/-- C1: the claim says rendering is deterministic and stable — two calls to
`BuildCommandLine` on the same descriptor and inputs are byte-identical and
position ties keep declaration order.  The code iterates the Go map
`tool.Inputs` (randomized iteration order) and sorts with the unstable
`sort.Slice`, so two runs over the very same tool and inputs can emit the
two tied fragments in either order: with iteration order a,b the vector is
["echo","x","y"], with order b,a it is ["echo","y","x"] (for two elements
Go's sort.Slice runs the stable insertion sort modelled here, so both
vectors are real executions of the source).  Declaration order of map
entries is not even retained by the Go representation. -/
theorem c1_map_iteration_order_changes_vector :
    c1toolB.inputs = c1toolA.inputs.reverse ∧
    buildCommandLine c1toolA c1ctx = .ok ["echo", "x", "y"] ∧
    buildCommandLine c1toolB c1ctx = .ok ["echo", "y", "x"] ∧
    (["echo", "x", "y"] : List String) ≠ ["echo", "y", "x"] :=
  ⟨rfl, rfl, rfl, by decide⟩

/-- Tool with one boolean input bound at position 1 with no prefix. -/
def c2tool : CommandLineTool :=
  { baseCommand := some (GoVal.str "echo"),
    inputs := [("flag", { binding := some { position := 1 } })] }

/-- Supplied input values for the C2 theorem: the boolean is true. -/
def c2ctx : ExecutionContext := { inputs := [("flag", GoVal.boolean true)] }

/-- C2: the claim (and spec section 4.2 step 5) says the empty string
produced by a true boolean with no prefix is dropped from the final vector.
The code (src/unnamed/part_000 lines 402-410 and 474-479) sets
`cmdValue = ""` and, with no prefix, appends `[]string{cmdValue}` as a
positional fragment, which the final concatenation emits verbatim: the
vector is ["echo", ""], containing an empty positional argument. -/
theorem c2_empty_token_is_emitted :
    buildCommandLine c2tool c2ctx = .ok ["echo", ""] ∧
    "" ∈ (["echo", ""] : List String) :=
  ⟨rfl, by decide⟩

/-- Filesystem outcomes for the C9 theorem: `os.Getwd` and `os.MkdirTemp`
succeed (the temporary directory /tmp/cwlgo-1 is created on disk), then
`os.MkdirAll` on the output directory fails (for instance because
/work/output exists as a regular file). -/
def c9fs : HostFs :=
  { getwdResult := .ok "/work", mkdirTempResult := .ok "/tmp/cwlgo-1", mkdirAllOk := false }

/-- C9: the claim says the temporary directory is removed on every exit path
of `Execute`, including failures during context construction.  When
`NewExecutionContext` (src/cwl.go lines 203-230) fails at the MkdirAll step
after MkdirTemp already succeeded, it returns the error without removing the
directory it created, and `Execute` (src/unnamed/part_000 lines 46-50)
returns before `defer execCtx.Cleanup()` is armed: the created directory is
never removed, on the success path of the body and on every failure path
alike. -/
theorem c9_construction_failure_leaks_tempdir :
    executeTempDirs c9fs true = (["/tmp/cwlgo-1"], []) ∧
    executeTempDirs c9fs false = (["/tmp/cwlgo-1"], []) ∧
    executeTempDirs { c9fs with mkdirAllOk := true } true =
      (["/tmp/cwlgo-1"], ["/tmp/cwlgo-1"]) :=
  ⟨rfl, rfl, rfl⟩

/-- Rational 9/2 = 4.5 given by its explicit normal form (float64 4.5 is
exactly this rational). -/
def ratFourPointFive : Rat := ⟨9, 2, by norm_num, by norm_num⟩

/-- ResourceRequirement record with a fractional float64 coresMin of 4.5,
which exceeds the default ceiling MaxCores = 4. -/
def c7req : List (String × GoVal) :=
  [("class", GoVal.str "ResourceRequirement"), ("coresMin", GoVal.num ratFourPointFive)]

/-- C7 counterexample: the claim says processRequirements fails when coresMin
exceeds the executor's MaxCores.  With coresMin = 4.5 and MaxCores = 4 the
code compares through Go's truncating `int(coresMin)` conversion
(src/unnamed/part_000 line 274), so `int(4.5) = 4 > 4` is false and the
record is admitted even though 4.5 > 4. -/
theorem c7_truncation_admits_excess_cores :
    processRequirements NewExecutor hostAll [c7req] cxBase = .ok cxBase ∧
    NewExecutor.maxCores = 4 ∧ ((4 : Rat) < ratFourPointFive) :=
  ⟨rfl, rfl, by decide⟩

/-- Helper for C7: characterization of the ramMin half of the resource
check (src/unnamed/part_000 lines 282-289). -/
theorem resourceRamCheck_ok_iff (e : Executor) (r : List (String × GoVal))
    (ctx : ExecutionContext) :
    resourceRamCheck e r ctx = .ok ctx ↔
      (∀ q, lookupGo r "ramMin" = some (GoVal.num q) → goTrunc q ≤ e.maxRAM) := by
  cases h : lookupGo r "ramMin" with
  | none => simp [resourceRamCheck, h]
  | some v =>
    cases v with
    | num q =>
      by_cases hgt : goTrunc q > e.maxRAM
      · simp [resourceRamCheck, h, hgt] <;> omega
      · simp [resourceRamCheck, h, hgt] <;> omega
    | str s => simp [resourceRamCheck, h]
    | boolean b => simp [resourceRamCheck, h]
    | int n => simp [resourceRamCheck, h]
    | arr xs => simp [resourceRamCheck, h]
    | map kvs => simp [resourceRamCheck, h]

/-- Helper for C7: characterization of the full resource branch
(src/unnamed/part_000 lines 270-289). -/
theorem processResourceReq_ok_iff (e : Executor) (r : List (String × GoVal))
    (ctx : ExecutionContext) :
    processResourceReq e r ctx = .ok ctx ↔
      ((∀ q, lookupGo r "coresMin" = some (GoVal.num q) → goTrunc q ≤ e.maxCores) ∧
       (∀ q, lookupGo r "ramMin" = some (GoVal.num q) → goTrunc q ≤ e.maxRAM)) := by
  cases h : lookupGo r "coresMin" with
  | none => simp [processResourceReq, h, resourceRamCheck_ok_iff]
  | some v =>
    cases v with
    | num q =>
      by_cases hgt : goTrunc q > e.maxCores
      · simp [processResourceReq, h, hgt] <;> omega
      · simp [processResourceReq, h, hgt, resourceRamCheck_ok_iff] <;> omega
    | str s => simp [processResourceReq, h, resourceRamCheck_ok_iff]
    | boolean b => simp [processResourceReq, h, resourceRamCheck_ok_iff]
    | int n => simp [processResourceReq, h, resourceRamCheck_ok_iff]
    | arr xs => simp [processResourceReq, h, resourceRamCheck_ok_iff]
    | map kvs => simp [processResourceReq, h, resourceRamCheck_ok_iff]

/-- C7 amended: for a single ResourceRequirement record, processRequirements
admits it (returning the context unchanged) exactly when every
float64-typed coresMin truncated toward zero is at most MaxCores and every
float64-typed ramMin truncated toward zero is at most MaxRAM; values of any
other dynamic type (Go int included) fail the `.(float64)` assertions and
are ignored, and when neither field is float64-typed the record is
admitted. -/
theorem c7_resource_check_amended (e : Executor) (host : Host)
    (r : List (String × GoVal)) (ctx : ExecutionContext)
    (hcls : lookupGo r "class" = some (GoVal.str "ResourceRequirement")) :
    processRequirements e host [r] ctx = .ok ctx ↔
      ((∀ q, lookupGo r "coresMin" = some (GoVal.num q) → goTrunc q ≤ e.maxCores) ∧
       (∀ q, lookupGo r "ramMin" = some (GoVal.num q) → goTrunc q ≤ e.maxRAM)) := by
  have h1 : processRequirements e host [r] ctx = processOneRequirement e host r ctx := by
    unfold processRequirements
    cases h : processOneRequirement e host r ctx <;> simp [h, processRequirements]
  rw [h1]
  unfold processOneRequirement
  rw [hcls]
  simp [processResourceReq_ok_iff]

/-- ResourceRequirement record for the C7 amended witness: an int-typed
coresMin (which the `.(float64)` assertion ignores) plus a float64 ramMin
within the ceiling. -/
def c7wreq : List (String × GoVal) :=
  [("class", GoVal.str "ResourceRequirement"),
   ("coresMin", GoVal.int 100), ("ramMin", GoVal.num 1024)]

/-- Witness for the amended C7 theorem: the record is admitted by the
default executor (MaxCores 4, MaxRAM 8192) even though its int-typed
coresMin is 100. -/
theorem c7_amended_witness :
    processRequirements NewExecutor hostAll [c7wreq] cxBase = .ok cxBase := by
  refine (c7_resource_check_amended NewExecutor hostAll c7wreq cxBase
    (by simp [c7wreq, lookupGo])).mpr ⟨?_, ?_⟩
  · intro q hq
    simp [c7wreq, lookupGo] at hq
  · intro q hq
    simp [c7wreq, lookupGo] at hq
    subst hq
    decide

/-- Helper for C10: the ramMin half of the resource check either fails or
returns the context it was given, untouched. -/
theorem resourceRamCheck_ok_eq (e : Executor) (r : List (String × GoVal))
    (ctx ctx2 : ExecutionContext) (h : resourceRamCheck e r ctx = .ok ctx2) :
    ctx2 = ctx := by
  unfold resourceRamCheck at h
  cases hr : lookupGo r "ramMin" with
  | none => rw [hr] at h; simp at h; exact h.symm
  | some v =>
    rw [hr] at h
    cases v with
    | num q =>
      by_cases hgt : goTrunc q > e.maxRAM
      · simp [hgt] at h
      · simp [hgt] at h; exact h.symm
    | str s => simp at h; exact h.symm
    | boolean b => simp at h; exact h.symm
    | int n => simp at h; exact h.symm
    | arr xs => simp at h; exact h.symm
    | map kvs => simp at h; exact h.symm

/-- Helper for C10: the ResourceRequirement branch either fails or returns
the context it was given, untouched (src/unnamed/part_000 lines 270-289
never write to the context). -/
theorem processResourceReq_ok_eq (e : Executor) (r : List (String × GoVal))
    (ctx ctx2 : ExecutionContext) (h : processResourceReq e r ctx = .ok ctx2) :
    ctx2 = ctx := by
  unfold processResourceReq at h
  cases hr : lookupGo r "coresMin" with
  | none => rw [hr] at h; exact resourceRamCheck_ok_eq e r ctx ctx2 h
  | some v =>
    rw [hr] at h
    cases v with
    | num q =>
      by_cases hgt : goTrunc q > e.maxCores
      · simp [hgt] at h
      · simp [hgt] at h; exact resourceRamCheck_ok_eq e r ctx ctx2 h
    | str s => exact resourceRamCheck_ok_eq e r ctx ctx2 h
    | boolean b => exact resourceRamCheck_ok_eq e r ctx ctx2 h
    | int n => exact resourceRamCheck_ok_eq e r ctx ctx2 h
    | arr xs => exact resourceRamCheck_ok_eq e r ctx ctx2 h
    | map kvs => exact resourceRamCheck_ok_eq e r ctx ctx2 h

/-- C10: a requirement list consisting only of ResourceRequirement records,
when processRequirements accepts it, leaves the execution context completely
unchanged — environment variables, container configuration and every
directory field included (the whole record is equal). -/
theorem c10_resource_requirements_frame (e : Executor) (host : Host)
    (reqs : List (List (String × GoVal))) (ctx ctx2 : ExecutionContext)
    (hcls : ∀ r ∈ reqs, lookupGo r "class" = some (GoVal.str "ResourceRequirement"))
    (h : processRequirements e host reqs ctx = .ok ctx2) : ctx2 = ctx := by
  induction reqs generalizing ctx with
  | nil =>
    unfold processRequirements at h
    simp at h
    exact h.symm
  | cons r rest ih =>
    unfold processRequirements processOneRequirement at h
    have hr := hcls r (by simp)
    rw [hr] at h
    simp only [String.reduceEq, reduceIte] at h
    cases hone : processResourceReq e r ctx with
    | error err =>
      rw [hone] at h
      simp at h
    | ok ctx3 =>
      rw [hone] at h
      simp only [] at h
      have h3 : ctx3 = ctx := processResourceReq_ok_eq e r ctx ctx3 hone
      subst h3
      exact ih _ (fun r2 hr2 => hcls r2 (List.mem_cons_of_mem r hr2)) h

/-- Requirement list for the C10 witness. -/
def c10reqs : List (List (String × GoVal)) :=
  [[("class", GoVal.str "ResourceRequirement"), ("ramMin", GoVal.num 1024)]]

/-- Witness for C10: a successful run over a concrete all-Resource list
leaves the concrete context equal to itself. -/
theorem c10_witness : cxBase = cxBase :=
  c10_resource_requirements_frame NewExecutor hostAll c10reqs cxBase cxBase
    (by intro r hr; simp [c10reqs] at hr; subst hr; rfl) rfl

/-- Helper for C5/C6: whenever the classification sees a completed process,
the ExecuteResult it builds carries the literal exit code. -/
theorem classifyExit_finished_exitCode (codes : List Int) (c : Int) (so se : String)
    (res : ExecuteResult) (errOpt : Option CWLError)
    (h : classifyExit codes (ProcOutcome.exited c) so se = RunReturn.finished res errOpt) :
    res.exitCode = c := by
  simp only [classifyExit] at h
  by_cases h0 : c = 0
  · rw [if_pos h0] at h
    injection h with hres herr
    rw [← hres]
    simpa using h0.symm
  · by_cases hc : c ∈ codes
    · rw [if_neg h0, if_pos hc] at h
      injection h with hres herr
      rw [← hres]
    · rw [if_neg h0, if_neg hc] at h
      injection h with hres herr
      rw [← hres]

/-- Helper for C5/C6: same statement lifted through `runCommandModel`
(container or native path alike). -/
theorem runCommandModel_finished_exitCode (tool : CommandLineTool) (args : List String)
    (ctx : ExecutionContext) (c : Int) (so se : String)
    (res : ExecuteResult) (errOpt : Option CWLError)
    (h : runCommandModel tool args ctx (ProcOutcome.exited c) so se =
      RunReturn.finished res errOpt) : res.exitCode = c := by
  unfold runCommandModel at h
  by_cases hargs : args = []
  · rw [if_pos hargs] at h
    simp at h
  · rw [if_neg hargs] at h
    cases hcont : ctx.container with
    | none =>
      rw [hcont] at h
      exact classifyExit_finished_exitCode tool.successCodes c so se res errOpt h
    | some cfg =>
      rw [hcont] at h
      simp only [] at h
      by_cases htyp : cfg.typ = "docker" ∨ cfg.typ = "singularity"
      · rw [if_pos htyp] at h
        exact classifyExit_finished_exitCode tool.successCodes c so se res errOpt h
      · rw [if_neg htyp] at h
        simp at h

/-- Helper for C5/C6: full native-path classification of a completed
process — the result carries the literal code, and the error is suppressed
exactly when the code is zero or in the declared success-code set. -/
theorem runCommandModel_exited (tool : CommandLineTool) (args : List String)
    (ctx : ExecutionContext) (c : Int) (so se : String)
    (hargs : args ≠ []) (hcont : ctx.container = none) :
    runCommandModel tool args ctx (ProcOutcome.exited c) so se =
      RunReturn.finished ⟨c, so, se, []⟩
        (if c = 0 ∨ c ∈ tool.successCodes then none else some ⟨"exit status error"⟩) := by
  by_cases h0 : c = 0
  · subst h0
    simp [runCommandModel, classifyExit, hargs, hcont]
  · by_cases hc : c ∈ tool.successCodes
    · simp [runCommandModel, classifyExit, hargs, hcont, h0, hc]
    · simp [runCommandModel, classifyExit, hargs, hcont, h0, hc]

/-- C5: when the declared success-code set contains the process's exit code,
the run is classified as successful — runCommand returns the result with
that literal exit code and a suppressed (nil) error, and Execute forwards a
non-error result with the same literal exit code to its caller (given that
the pipeline around the process reached it and the outputs resolve). -/
theorem c5_success_code_remap :
    (∀ (tool : CommandLineTool) (args : List String) (ctx : ExecutionContext)
       (c : Int) (so se : String),
      args ≠ [] → ctx.container = none → c ∈ tool.successCodes →
      runCommandModel tool args ctx (ProcOutcome.exited c) so se =
        RunReturn.finished ⟨c, so, se, []⟩ none) ∧
    (∀ (e : Executor) (host : Host) (tool : CommandLineTool)
       (ins : List (String × GoVal)) (ctx0 ctx1 : ExecutionContext)
       (args : List String) (files : List (String × String)) (c : Int)
       (so se : String) (globFn : String → Except String (List String)),
      processRequirements e host tool.requirements { ctx0 with inputs := ins } = .ok ctx1 →
      buildCommandLine tool ctx1 = .ok args → args ≠ [] → ctx1.container = none →
      processOutputs tool.outputs ctx1.outputDir globFn = .ok files →
      c ∈ tool.successCodes →
      ExecuteModel e host tool ins ctx0 (ProcOutcome.exited c) so se globFn =
        (some ⟨c, so, se, files⟩, none)) := by
  constructor
  · intro tool args ctx c so se hargs hcont hc
    rw [runCommandModel_exited tool args ctx c so se hargs hcont]
    simp [hc]
  · intro e host tool ins ctx0 ctx1 args files c so se globFn h1 h2 hargs hcont h5 hc
    simp only [ExecuteModel]
    rw [h1]
    simp only []
    rw [h2]
    simp only []
    rw [runCommandModel_exited tool args ctx1 c so se hargs hcont]
    simp only [hc, or_true, if_true]
    rw [h5]

/-- Tool for the C5 witness: success codes {0, 2}. -/
def c5tool : CommandLineTool :=
  { baseCommand := some (GoVal.str "sh"), successCodes := [0, 2] }

/-- Witness for C5: with declared success codes {0, 2} and the process
exiting 2, Execute returns a non-error result whose ExitCode is 2. -/
theorem c5_witness :
    ExecuteModel NewExecutor hostAll c5tool [] cxBase (ProcOutcome.exited 2) "o" "e" emptyGlob
      = (some ⟨2, "o", "e", []⟩, none) :=
  c5_success_code_remap.2 NewExecutor hostAll c5tool [] cxBase
    { cxBase with inputs := [] } ["sh"] [] 2 "o" "e" emptyGlob rfl rfl
    (by decide) rfl rfl (by decide)

/-- Tool for the C6 counterexample: no declared success codes. -/
def c6tool : CommandLineTool :=
  { baseCommand := some (GoVal.str "sh"), successCodes := [] }

/-- C6 counterexample: the claim says the caller of Execute receives an
ExecuteResult carrying the literal exit code even when the run is classified
as a failure.  With no declared success codes and the process exiting 3, the
classification fails and Execute returns `(nil, err)` (src/unnamed/part_000
lines 67-70 discard the result runCommand handed back): the caller receives
no ExecuteResult at all. -/
theorem c6_failure_withholds_result :
    (ExecuteModel NewExecutor hostAll c6tool [] cxBase (ProcOutcome.exited 3) "o" "e"
      emptyGlob).fst = none ∧
    (ExecuteModel NewExecutor hostAll c6tool [] cxBase (ProcOutcome.exited 3) "o" "e"
      emptyGlob).snd = some ⟨"exit status error"⟩ :=
  ⟨rfl, rfl⟩

/-- C6 amended: whenever the child process runs to completion with a
concrete exit code, runCommand's own return value carries that literal code
in its ExitCode field, even alongside the failure error (the error being
suppressed exactly when the code is zero or declared successful); the caller
of Execute receives that result only when the run is classified successful,
and whenever Execute does hand back a result at all, its ExitCode is the
literal exit code. -/
theorem c6_literal_exit_code_amended :
    (∀ (tool : CommandLineTool) (args : List String) (ctx : ExecutionContext)
       (c : Int) (so se : String),
      args ≠ [] → ctx.container = none →
      runCommandModel tool args ctx (ProcOutcome.exited c) so se =
        RunReturn.finished ⟨c, so, se, []⟩
          (if c = 0 ∨ c ∈ tool.successCodes then none else some ⟨"exit status error"⟩)) ∧
    (∀ (e : Executor) (host : Host) (tool : CommandLineTool)
       (ins : List (String × GoVal)) (ctx0 : ExecutionContext) (c : Int)
       (so se : String) (globFn : String → Except String (List String))
       (r : ExecuteResult),
      (ExecuteModel e host tool ins ctx0 (ProcOutcome.exited c) so se globFn).fst = some r →
      r.exitCode = c) := by
  constructor
  · intro tool args ctx c so se hargs hcont
    exact runCommandModel_exited tool args ctx c so se hargs hcont
  · intro e host tool ins ctx0 c so se globFn r h
    simp only [ExecuteModel] at h
    cases hpr : processRequirements e host tool.requirements { ctx0 with inputs := ins } with
    | error err => rw [hpr] at h; simp at h
    | ok ctx1 =>
      rw [hpr] at h
      simp only [] at h
      cases hbc : buildCommandLine tool ctx1 with
      | error err => rw [hbc] at h; simp at h
      | ok args =>
        rw [hbc] at h
        simp only [] at h
        cases hrun : runCommandModel tool args ctx1 (ProcOutcome.exited c) so se with
        | failedNoResult err => rw [hrun] at h; simp at h
        | finished res errOpt =>
          rw [hrun] at h
          cases errOpt with
          | some err => simp at h
          | none =>
            simp only [] at h
            cases hpo : processOutputs tool.outputs ctx1.outputDir globFn with
            | error err => rw [hpo] at h; simp at h
            | ok files =>
              rw [hpo] at h
              simp at h
              have hres : res.exitCode = c :=
                runCommandModel_finished_exitCode tool args ctx1 c so se res none hrun
              rw [← h]
              exact hres

/-- Tool for the C6 amended witness: success codes {2}. -/
def c6btool : CommandLineTool :=
  { baseCommand := some (GoVal.str "sh"), successCodes := [2] }

/-- Witness for the amended C6 theorem: a failure-classified exit 3 still
yields a runCommand result carrying 3, and an Execute call that does return
a result reports the literal code 2. -/
theorem c6_amended_witness :
    runCommandModel c6btool ["sh"] cxBase (ProcOutcome.exited 3) "o" "e" =
      RunReturn.finished ⟨3, "o", "e", []⟩ (some ⟨"exit status error"⟩) ∧
    (⟨2, "o", "e", []⟩ : ExecuteResult).exitCode = 2 := by
  constructor
  · have h := c6_literal_exit_code_amended.1 c6btool ["sh"] cxBase 3 "o" "e" (by decide) rfl
    simpa [c6btool] using h
  · exact c6_literal_exit_code_amended.2 NewExecutor hostAll c6btool [] cxBase 2 "o" "e"
      emptyGlob ⟨2, "o", "e", []⟩ rfl

/-- C3: for a boolean input bound with a non-empty prefix, value true
contributes exactly the prefix token (and no value token) and value false
contributes nothing; in a tool where this is the only bound input and there
are no static arguments, the final vector is the base command plus the bare
prefix for true, and the base command alone for false — neither the prefix
nor any value token appears. -/
theorem c3_boolean_flag_rendering (ctx : ExecutionContext) (inputID : String)
    (p : CommandInputParameter) (b : CommandLineBinding) (cmd : String)
    (hb : p.binding = some b) (hpfx : b.pfx ≠ "") :
    (resolveValue ctx.inputs inputID p = .ok (GoVal.boolean true) →
      inputFragment ctx.inputs inputID p = .ok (some ⟨b.position, [b.pfx]⟩) ∧
      buildCommandLine { baseCommand := some (GoVal.str cmd), inputs := [(inputID, p)] } ctx
        = .ok [cmd, b.pfx]) ∧
    (resolveValue ctx.inputs inputID p = .ok (GoVal.boolean false) →
      inputFragment ctx.inputs inputID p = .ok none ∧
      buildCommandLine { baseCommand := some (GoVal.str cmd), inputs := [(inputID, p)] } ctx
        = .ok [cmd]) := by
  constructor
  · intro hres
    have hfrag : inputFragment ctx.inputs inputID p = .ok (some ⟨b.position, [b.pfx]⟩) := by
      simp [inputFragment, hb, hres, renderInputValue, hpfx]
    refine ⟨hfrag, ?_⟩
    simp [buildCommandLine, baseCommandTokens, collectArgFragments, collectInputFragments,
          hfrag, sortSlice, insertByPos]
  · intro hres
    have hfrag : inputFragment ctx.inputs inputID p = .ok none := by
      simp [inputFragment, hb, hres, renderInputValue]
    refine ⟨hfrag, ?_⟩
    simp [buildCommandLine, baseCommandTokens, collectArgFragments, collectInputFragments,
          hfrag, sortSlice, insertByPos]

/-- Witness for C3: the boolean flag `invert` with prefix -v renders the
bare flag, and end to end the vector is ["grep", "-v"]. -/
theorem c3_witness :
    inputFragment [("invert", GoVal.boolean true)] "invert"
      { binding := some { position := 0, pfx := "-v" } } =
      .ok (some ⟨0, ["-v"]⟩) ∧
    buildCommandLine
      { baseCommand := some (GoVal.str "grep"),
        inputs := [("invert", { binding := some { position := 0, pfx := "-v" } })] }
      { inputs := [("invert", GoVal.boolean true)] } = .ok ["grep", "-v"] :=
  (c3_boolean_flag_rendering { inputs := [("invert", GoVal.boolean true)] } "invert"
    { binding := some { position := 0, pfx := "-v" } } { position := 0, pfx := "-v" }
    "grep" rfl (by decide)).1 rfl

/-- C4: for an input binding with a non-empty prefix and a non-boolean value
that renders to a string, separate=false emits the single token formed by
the prefix concatenated directly with the value, while separate unset or
true emits the two tokens prefix then value. -/
theorem c4_separate_flag (ctx : ExecutionContext) (inputID : String)
    (p : CommandInputParameter) (b : CommandLineBinding) (v : GoVal) (s : String)
    (hb : p.binding = some b) (hpfx : b.pfx ≠ "")
    (hres : resolveValue ctx.inputs inputID p = .ok v)
    (hnb : ∀ b2, v ≠ GoVal.boolean b2)
    (hrend : renderInputValue inputID v = .ok (s, false)) :
    (b.separate = some false →
      inputFragment ctx.inputs inputID p = .ok (some ⟨b.position, [b.pfx ++ s]⟩)) ∧
    ((b.separate = none ∨ b.separate = some true) →
      inputFragment ctx.inputs inputID p = .ok (some ⟨b.position, [b.pfx, s]⟩)) := by
  constructor
  · intro hsep
    cases v with
    | boolean b2 => exact absurd rfl (hnb b2)
    | str s2 => simp [inputFragment, hb, hres, hrend, hpfx, hsep]
    | num q => simp [inputFragment, hb, hres, hrend, hpfx, hsep]
    | int n => simp [inputFragment, hb, hres, hrend, hpfx, hsep]
    | arr xs => simp [inputFragment, hb, hres, hrend, hpfx, hsep]
    | map kvs => simp [inputFragment, hb, hres, hrend, hpfx, hsep]
  · intro hsep
    rcases hsep with h2 | h2 <;>
      (cases v with
       | boolean b2 => exact absurd rfl (hnb b2)
       | str s2 => simp [inputFragment, hb, hres, hrend, hpfx, h2]
       | num q => simp [inputFragment, hb, hres, hrend, hpfx, h2]
       | int n => simp [inputFragment, hb, hres, hrend, hpfx, h2]
       | arr xs => simp [inputFragment, hb, hres, hrend, hpfx, h2]
       | map kvs => simp [inputFragment, hb, hres, hrend, hpfx, h2])

/-- Witness for C4: a string input with prefix -o and separate=false renders
the single glued token -ox.txt. -/
theorem c4_witness :
    inputFragment [("outfile", GoVal.str "x.txt")] "outfile"
      { binding := some { position := 2, pfx := "-o", separate := some false } } =
      .ok (some ⟨2, ["-ox.txt"]⟩) :=
  (c4_separate_flag { inputs := [("outfile", GoVal.str "x.txt")] } "outfile"
    { binding := some { position := 2, pfx := "-o", separate := some false } }
    { position := 2, pfx := "-o", separate := some false } (GoVal.str "x.txt") "x.txt"
    rfl (by decide) rfl (fun b2 h => GoVal.noConfusion h) rfl).1 rfl

/-- Helper for C8: looking up the key just set returns the new value. -/
theorem lookupS_setKV_self (kvs : List (String × String)) (k v : String) :
    lookupS (setKV kvs k v) k = some v := by
  induction kvs with
  | nil => simp [setKV, lookupS]
  | cons kv rest ih =>
    obtain ⟨k2, v2⟩ := kv
    by_cases h : k2 = k
    · simp [setKV, lookupS, h]
    · simp [setKV, lookupS, h, ih]

/-- Helper for C8: setting a different key leaves a lookup unchanged. -/
theorem lookupS_setKV_ne (kvs : List (String × String)) (k k2 v : String)
    (h : k ≠ k2) : lookupS (setKV kvs k2 v) k = lookupS kvs k := by
  induction kvs with
  | nil => simp [setKV, lookupS, Ne.symm h]
  | cons kv rest ih =>
    obtain ⟨k3, v3⟩ := kv
    by_cases h3 : k3 = k2
    · subst h3
      simp [setKV, lookupS, Ne.symm h]
    · by_cases hk : k3 = k
      · simp [setKV, lookupS, h3, hk, h]
      · simp [setKV, lookupS, h3, hk, h, ih]

/-- Helper for C8: outputs whose ids differ from `oid` never change what the
result maps `oid` to. -/
theorem processOutputsAux_lookup_notmem (dir : String)
    (globFn : String → Except String (List String))
    (outputs : List (String × CommandOutputParameter))
    (acc res : List (String × String)) (oid : String)
    (hnm : oid ∉ outputs.map Prod.fst)
    (h : processOutputsAux dir globFn outputs acc = .ok res) :
    lookupS res oid = lookupS acc oid := by
  induction outputs generalizing acc with
  | nil =>
    unfold processOutputsAux at h
    injection h with h2
    rw [← h2]
  | cons op rest ih =>
    obtain ⟨oid2, p2⟩ := op
    simp only [List.map, List.mem_cons, not_or] at hnm
    unfold processOutputsAux at h
    cases hro : resolveOutput dir globFn p2 with
    | error e => rw [hro] at h; simp at h
    | ok vo =>
      rw [hro] at h
      cases vo with
      | none =>
        simp only [] at h
        exact ih acc hnm.2 h
      | some path =>
        simp only [] at h
        rw [ih (setKV acc oid2 path) hnm.2 h]
        exact lookupS_setKV_ne acc oid oid2 path hnm.1

/-- Helper for C8: with pairwise-distinct output ids, the result of the
output loop maps each id exactly as its own resolveOutput dictates. -/
theorem processOutputsAux_lookup_mem (dir : String)
    (globFn : String → Except String (List String))
    (outputs : List (String × CommandOutputParameter))
    (acc res : List (String × String)) (oid : String) (p : CommandOutputParameter)
    (hnd : (outputs.map Prod.fst).Nodup)
    (hmem : (oid, p) ∈ outputs)
    (h : processOutputsAux dir globFn outputs acc = .ok res) :
    ∃ vo, resolveOutput dir globFn p = .ok vo ∧
      lookupS res oid =
        (match vo with | some path => some path | none => lookupS acc oid) := by
  induction outputs generalizing acc with
  | nil => cases hmem
  | cons op rest ih =>
    obtain ⟨oid2, p2⟩ := op
    simp only [List.map, List.nodup_cons] at hnd
    rcases List.mem_cons.mp hmem with heq | hmem2
    · injection heq with h1 h2
      subst h1
      subst h2
      unfold processOutputsAux at h
      cases hro : resolveOutput dir globFn p with
      | error e => rw [hro] at h; simp at h
      | ok vo =>
        rw [hro] at h
        refine ⟨vo, rfl, ?_⟩
        cases vo with
        | none =>
          simp only [] at h
          exact processOutputsAux_lookup_notmem dir globFn rest acc res oid hnd.1 h
        | some path =>
          simp only [] at h
          rw [processOutputsAux_lookup_notmem dir globFn rest (setKV acc oid path) res oid
            hnd.1 h]
          exact lookupS_setKV_self acc oid path
    · have hne : oid ≠ oid2 := by
        intro heq2
        subst heq2
        exact hnd.1 (List.mem_map_of_mem Prod.fst hmem2)
      unfold processOutputsAux at h
      cases hro : resolveOutput dir globFn p2 with
      | error e => rw [hro] at h; simp at h
      | ok vo =>
        rw [hro] at h
        cases vo with
        | none =>
          simp only [] at h
          exact ih acc hnd.2 hmem2 h
        | some path =>
          simp only [] at h
          obtain ⟨vo2, hvo2, hlk⟩ := ih (setKV acc oid2 path) hnd.2 hmem2 h
          refine ⟨vo2, hvo2, ?_⟩
          rw [hlk]
          cases vo2 with
          | some path2 => rfl
          | none => exact lookupS_setKV_ne acc oid oid2 path hne

/-- Helper for C8: on a list of string patterns, the code's glob-list loop
computes exactly the spec's first-match rule. -/
theorem resolveGlobList_strings (dir : String)
    (globFn : String → Except String (List String)) (gs : List String) :
    resolveGlobList dir globFn (gs.map GoVal.str) = specFirstMatch dir globFn gs := by
  induction gs with
  | nil => rfl
  | cons g rest ih =>
    unfold resolveGlobList specFirstMatch
    simp only [List.map]
    cases hg : globFn (joinPath dir g) with
    | error e => simp [hg]
    | ok ms => cases ms <;> simp [hg, ih]

/-- C8: outputs with no binding are skipped; a string glob binds the output
to the first of its matches and zero matches leave it absent without error;
a list of string globs follows the spec's first-pattern-with-a-match rule;
and for pairwise-distinct declared outputs the result mapping assigns each
output id exactly what its own resolution produced (absent when none). -/
theorem c8_output_resolution :
    (∀ (dir : String) (globFn : String → Except String (List String))
       (p : CommandOutputParameter), p.binding = none →
       resolveOutput dir globFn p = .ok none) ∧
    (∀ (dir : String) (globFn : String → Except String (List String))
       (p : CommandOutputParameter) (b : CommandOutputBinding) (g m : String)
       (ms : List String), p.binding = some b → b.glob = some (GoVal.str g) →
       globFn (joinPath dir g) = .ok (m :: ms) →
       resolveOutput dir globFn p = .ok (some m)) ∧
    (∀ (dir : String) (globFn : String → Except String (List String))
       (p : CommandOutputParameter) (b : CommandOutputBinding) (g : String),
       p.binding = some b → b.glob = some (GoVal.str g) →
       globFn (joinPath dir g) = .ok [] →
       resolveOutput dir globFn p = .ok none) ∧
    (∀ (dir : String) (globFn : String → Except String (List String))
       (p : CommandOutputParameter) (b : CommandOutputBinding) (gs : List String),
       p.binding = some b → b.glob = some (GoVal.arr (gs.map GoVal.str)) →
       resolveOutput dir globFn p = specFirstMatch dir globFn gs) ∧
    (∀ (outputs : List (String × CommandOutputParameter)) (dir : String)
       (globFn : String → Except String (List String))
       (res : List (String × String)) (oid : String) (p : CommandOutputParameter),
       (outputs.map Prod.fst).Nodup →
       processOutputs outputs dir globFn = .ok res → (oid, p) ∈ outputs →
       ∃ vo, resolveOutput dir globFn p = .ok vo ∧ lookupS res oid = vo) := by
  refine ⟨?_, ?_, ?_, ?_, ?_⟩
  · intro dir globFn p hb
    simp [resolveOutput, hb]
  · intro dir globFn p b g m ms hb hg hfn
    simp [resolveOutput, hb, hg, hfn]
  · intro dir globFn p b g hb hg hfn
    simp [resolveOutput, hb, hg, hfn]
  · intro dir globFn p b gs hb hg
    rw [show resolveOutput dir globFn p = resolveGlobList dir globFn (gs.map GoVal.str) from by
      simp [resolveOutput, hb, hg]]
    exact resolveGlobList_strings dir globFn gs
  · intro outputs dir globFn res oid p hnd h hmem
    obtain ⟨vo, hvo, hlk⟩ :=
      processOutputsAux_lookup_mem dir globFn outputs [] res oid p hnd hmem h
    refine ⟨vo, hvo, ?_⟩
    rw [hlk]
    cases vo with
    | some path => rfl
    | none => rfl

/-- Output parameter with the glob output.txt, used by the C8 witness. -/
def c8out : CommandOutputParameter :=
  { binding := some { glob := some (GoVal.str "output.txt") } }

/-- Glob oracle for the C8 witness: the output directory contains exactly
output.txt. -/
def c8glob : String → Except String (List String) :=
  fun p => if p = "/work/output/output.txt" then .ok ["/work/output/output.txt"] else .ok []

/-- Witness for C8 exercising all five conjuncts on a concrete output
directory holding exactly output.txt. -/
theorem c8_witness :
    resolveOutput "/work/output" c8glob { binding := none } = .ok none ∧
    resolveOutput "/work/output" c8glob c8out = .ok (some "/work/output/output.txt") ∧
    resolveOutput "/work/output" c8glob
      { binding := some { glob := some (GoVal.str "missing.txt") } } = .ok none ∧
    resolveOutput "/work/output" c8glob
      { binding := some { glob := some (GoVal.arr [GoVal.str "missing.txt", GoVal.str "output.txt"]) } } =
      specFirstMatch "/work/output" c8glob ["missing.txt", "output.txt"] ∧
    (∃ vo, resolveOutput "/work/output" c8glob c8out = .ok vo ∧
      lookupS [("out1", "/work/output/output.txt")] "out1" = vo) := by
  refine ⟨?_, ?_, ?_, ?_, ?_⟩
  · exact c8_output_resolution.1 "/work/output" c8glob { binding := none } rfl
  · exact c8_output_resolution.2.1 "/work/output" c8glob c8out _ "output.txt"
      "/work/output/output.txt" [] rfl rfl rfl
  · exact c8_output_resolution.2.2.1 "/work/output" c8glob
      { binding := some { glob := some (GoVal.str "missing.txt") } } _ "missing.txt"
      rfl rfl rfl
  · exact c8_output_resolution.2.2.2.1 "/work/output" c8glob
      { binding := some { glob := some (GoVal.arr [GoVal.str "missing.txt", GoVal.str "output.txt"]) } }
      _ ["missing.txt", "output.txt"] rfl rfl
  · exact c8_output_resolution.2.2.2.2 [("out1", c8out)] "/work/output" c8glob
      [("out1", "/work/output/output.txt")] "out1" c8out (by simp) rfl (by simp)
